import Mathlib

/-!
Verification of the drone convoy leaderboard tracking service.

This file gives a shallow embedding of the persistence and analytics core of
the service, translated from the Rust source:

* `drone-persistence/src/repository/scylla_impl.rs` — the leaderboard
  repository (`update_entry`, `get_leaderboard`) and the engagement
  repository (`record`);
* `drone-persistence/src/cache/redis_client.rs` — the hot-tier counter
  operation `increment_engagements`;
* `drone-persistence/src/strategy/write_strategy.rs` and
  `read_strategy.rs` — the `WriteThrough` and `CacheFirst` policies;
* `drone-graphql-api/src/resolvers/mutation.rs` — `recordEngagement` and
  `createEngagement`;
* `drone-analytics/src/engine.rs` — `ingest_engagement` and the
  `weapon_effectiveness` aggregate.

Machine floats in the source are modelled by exact rationals; database rows
are records of optional column values (an absent row or a null column is
`none`), mirroring the source's `unwrap_or` defaulting on every column read.
-/

namespace DroneTracking

/-- Drone platform types, from `drone-domain/src/lib.rs` (`PlatformType`). -/
inductive PlatformType where
  | mq9Reaper
  | mq1cGrayEagle
  | rq4GlobalHawk
  | mq25Stingray
deriving DecidableEq, Repr

/-- The source parses a platform string with
`platform.parse().unwrap_or(PlatformType::Mq9Reaper)`; the recognised names
are the serde `SCREAMING_SNAKE_CASE` names of the enum, and every other
string falls back to `mq9Reaper` exactly as the source's `unwrap_or` does. -/
def platformParseOr : String → PlatformType
  | "MQ9_REAPER" => .mq9Reaper
  | "MQ1C_GRAY_EAGLE" => .mq1cGrayEagle
  | "RQ4_GLOBAL_HAWK" => .rq4GlobalHawk
  | "MQ25_STINGRAY" => .mq25Stingray
  | _ => .mq9Reaper

/-- One row of the cold-tier `leaderboard` table for a fixed
`(convoy_id, drone_id)` key.  Every column is optional: a column the code
has never written is `none`, matching the nullable wide-column model that
the source defends against with `unwrap_or` on every read
(`scylla_impl.rs`, lines 227-240). -/
structure LeaderboardRow where
  total_engagements : Option Int
  successful_hits : Option Int
  callsign : Option String
  platform_type : Option String
  accuracy_pct : Option ℚ
  current_streak : Option Int
  best_streak : Option Int
  rank : Option Int
deriving DecidableEq, Repr

/-- A freshly upserted row: a CQL `UPDATE` on an absent primary key creates
the row, leaving every column it does not set null. -/
def LeaderboardRow.blank : LeaderboardRow :=
  { total_engagements := none, successful_hits := none, callsign := none,
    platform_type := none, accuracy_pct := none, current_streak := none,
    best_streak := none, rank := none }

/-- The tuple `(total, hits, callsign, platform)` that `update_entry` reads
before computing the new values (`scylla_impl.rs`, lines 227-240). -/
structure CurrentStats where
  total : Int
  hits : Int
  callsign : String
  platform : String
deriving DecidableEq, Repr

/-- The row read at the top of `update_entry`: an absent row, or a null in
any selected column, defaults to `0` / `"UNKNOWN"` / `"MQ9_REAPER"`
(`scylla_impl.rs`, lines 227-240). -/
def getCurrentStats : Option LeaderboardRow → CurrentStats
  | some row =>
      { total := row.total_engagements.getD 0,
        hits := row.successful_hits.getD 0,
        callsign := row.callsign.getD "UNKNOWN",
        platform := row.platform_type.getD "MQ9_REAPER" }
  | none =>
      { total := 0, hits := 0, callsign := "UNKNOWN", platform := "MQ9_REAPER" }

/-- The value `update_entry` returns, mirroring field for field the struct
literal at `scylla_impl.rs`, lines 268-278.  The literal sets `rank: 0` and
carries no streak data. -/
structure ReturnedEntry where
  callsign : String
  platform_type : PlatformType
  total_engagements : Int
  successful_hits : Int
  accuracy_pct : ℚ
  rank : Int
deriving DecidableEq, Repr

/-- `ScyllaLeaderboardRepository::update_entry` (`scylla_impl.rs`, lines
210-279) for one `(convoy_id, drone_id)` key: read the current stats with
defaults, compute `new_total`, `new_hits` and `new_accuracy`, issue an
`UPDATE` that sets exactly the three columns `total_engagements`,
`successful_hits` and `accuracy_pct`, and return the newly computed entry.
The result is the stored row after the `UPDATE` paired with the returned
entry.  Division is exact rational division standing for the source's `f32`
computation `(new_hits as f32 / new_total as f32) * 100.0`. -/
def update_entry (s : Option LeaderboardRow) (hit : Bool) :
    LeaderboardRow × ReturnedEntry :=
  let cur := getCurrentStats s
  let new_total := cur.total + 1
  let new_hits := if hit then cur.hits + 1 else cur.hits
  let new_accuracy : ℚ :=
    if new_total > 0 then ((new_hits : ℚ) / (new_total : ℚ)) * 100 else 0
  let base := s.getD LeaderboardRow.blank
  ({ base with
      total_engagements := some new_total,
      successful_hits := some new_hits,
      accuracy_pct := some new_accuracy },
   { callsign := cur.callsign,
     platform_type := platformParseOr cur.platform,
     total_engagements := new_total,
     successful_hits := new_hits,
     accuracy_pct := new_accuracy,
     rank := 0 })

/-- A sequence of `recordEngagement` calls for one asset.  The GraphQL
resolver (`mutation.rs`, lines 27-91) delegates each call to
`update_entry`, so the stored row evolves by folding `update_entry` over
the list of hit flags. -/
def runEngagements : Option LeaderboardRow → List Bool → Option LeaderboardRow
  | s, [] => s
  | s, h :: t => runEngagements (some (update_entry s h).1) t

/-- Stored `total_engagements` as the next `update_entry` call would read it. -/
def storedTotal (s : Option LeaderboardRow) : Int :=
  (getCurrentStats s).total

/-- Stored `successful_hits` as the next `update_entry` call would read it. -/
def storedHits (s : Option LeaderboardRow) : Int :=
  (getCurrentStats s).hits

/-- Stored `accuracy_pct` column (null when never written). -/
def storedAccuracy : Option LeaderboardRow → Option ℚ
  | some row => row.accuracy_pct
  | none => none

/-- Stored `current_streak` column (null when never written). -/
def storedCurrentStreak : Option LeaderboardRow → Option Int
  | some row => row.current_streak
  | none => none

/-- Stored `best_streak` column (null when never written). -/
def storedBestStreak : Option LeaderboardRow → Option Int
  | some row => row.best_streak
  | none => none

/-- Number of `true` flags in a call sequence. -/
def countHits (hs : List Bool) : Nat := hs.count true

/-- Round a rational to two decimal places, the operation the spec's
`round(100 × successful_hits / total_engagements, 2)` denotes. -/
def roundTo2 (q : ℚ) : ℚ := (round (q * 100) : ℤ) / 100

/-- A row of the cold `leaderboard` table as selected by `get_leaderboard`
(`scylla_impl.rs`, lines 141-147), together with its clustering-key
`drone_id` (UUIDs abstracted to naturals, which preserves their total
order). -/
structure LBTableRow where
  drone_id : Nat
  callsign : Option String
  platform_type : Option String
  total_engagements : Option Int
  successful_hits : Option Int
  accuracy_pct : Option ℚ
  rank : Option Int
deriving DecidableEq, Repr

/-- The entry `get_leaderboard` builds from one fetched row
(`scylla_impl.rs`, lines 186-196). -/
structure FetchedEntry where
  drone_id : Nat
  callsign : String
  platform_type : PlatformType
  total_engagements : Int
  successful_hits : Int
  accuracy_pct : ℚ
  rank : Int
deriving DecidableEq, Repr

/-- Row parsing inside `get_leaderboard` (`scylla_impl.rs`, lines 159-196):
every null column falls back to a default, and in particular the `rank`
field is the stored `rank` column with `unwrap_or(0)` — the code does not
assign row-index-based ranks. -/
def rowToEntry (r : LBTableRow) : FetchedEntry :=
  { drone_id := r.drone_id,
    callsign := r.callsign.getD "UNKNOWN",
    platform_type := platformParseOr (r.platform_type.getD "MQ9_REAPER"),
    total_engagements := r.total_engagements.getD 0,
    successful_hits := r.successful_hits.getD 0,
    accuracy_pct := r.accuracy_pct.getD 0,
    rank := r.rank.getD 0 }

/-- Modelled from the spec: the cold tier's clustering order for the
`leaderboard` table, whose DDL (externally managed, spec section 4.B) is
`leaderboard((convoy_id) PK, (accuracy_pct DESC, drone_id) clustering)`.
A `SELECT ... WHERE convoy_id = ?` hands rows back in this order:
`accuracy_pct` descending, then `drone_id` ascending.  Null ordering uses
the same column default the reader applies. -/
def clusterLE (a b : LBTableRow) : Prop :=
  b.accuracy_pct.getD 0 < a.accuracy_pct.getD 0 ∨
    (a.accuracy_pct.getD 0 = b.accuracy_pct.getD 0 ∧ a.drone_id ≤ b.drone_id)

instance : DecidableRel clusterLE := fun a b => by
  unfold clusterLE; infer_instance

/-- The cache-miss path of `ScyllaLeaderboardRepository::get_leaderboard`
(`scylla_impl.rs`, lines 140-206): the prepared `SELECT ... LIMIT ?`
returns at most `limit` rows in clustering order and each row is parsed by
`rowToEntry`.  `rows` is the full clustered partition for the convoy. -/
def get_leaderboard_cold (rows : List LBTableRow) (limit : Nat) :
    List FetchedEntry :=
  (rows.take limit).map rowToEntry

/-- The ordering claimed by the spec for a returned leaderboard page:
`accuracy_pct` descending, ties broken by `total_engagements` descending
and then by asset id ascending. -/
def specPageLE (a b : FetchedEntry) : Prop :=
  b.accuracy_pct < a.accuracy_pct ∨
    (a.accuracy_pct = b.accuracy_pct ∧
      (b.total_engagements < a.total_engagements ∨
        (a.total_engagements = b.total_engagements ∧ a.drone_id ≤ b.drone_id)))

instance : DecidableRel specPageLE := fun a b => by
  unfold specPageLE; infer_instance

/-- The full ranking-page property claimed by the spec for
`get_leaderboard(convoy_id, N)`: the page is sorted by `specPageLE` and the
ranks carried by the entries are the contiguous prefix `1..min(N, size)`,
i.e. rank = row index + 1. -/
def rankingPageClaim (rows : List LBTableRow) (limit : Nat) : Prop :=
  (get_leaderboard_cold rows limit).Sorted specPageLE ∧
    ∀ i : Fin (get_leaderboard_cold rows limit).length,
      ((get_leaderboard_cold rows limit).get i).rank = (i : Nat) + 1

-- =============================================================================
-- HOT-STORE COUNTERS (redis_client.rs)
-- =============================================================================

/-- The hot-tier hash `stats:engagements:{drone_id}` with its two fields;
a field that was never incremented is absent (`none`).  `HINCRBY` on an
absent field treats it as `0`, and the source's fallback read
`hget(...).unwrap_or(0)` also yields `0` for an absent field. -/
structure EngagementStats where
  total_engagements : Option Int
  successful_hits : Option Int
deriving DecidableEq, Repr

/-- Value of the `total_engagements` field, absent read as 0. -/
def EngagementStats.totalVal (s : EngagementStats) : Int :=
  s.total_engagements.getD 0

/-- Value of the `successful_hits` field, absent read as 0. -/
def EngagementStats.hitsVal (s : EngagementStats) : Int :=
  s.successful_hits.getD 0

/-- The individual Redis commands `CacheClient::increment_engagements`
issues (`redis_client.rs`, lines 227-246).  Each command executes
atomically on the Redis side. -/
inductive RedisOp where
  | incrTotal
  | incrHits
  | getHits
deriving DecidableEq, Repr

/-- Atomic effect of one Redis command on the hash. -/
def applyOp (s : EngagementStats) : RedisOp → EngagementStats
  | .incrTotal => { s with total_engagements := some (s.totalVal + 1) }
  | .incrHits => { s with successful_hits := some (s.hitsVal + 1) }
  | .getHits => s

/-- Execute a list of Redis commands in order. -/
def execOps (s : EngagementStats) (l : List RedisOp) : EngagementStats :=
  l.foldl applyOp s

/-- The command sequence one `increment_engagements(drone_id, hit)` call
issues: `HINCRBY total_engagements 1`, then on a hit
`HINCRBY successful_hits 1`, otherwise `HGET successful_hits`
(`redis_client.rs`, lines 235-240; the TTL renewal touches no counter). -/
def callOps (hit : Bool) : List RedisOp :=
  if hit then [.incrTotal, .incrHits] else [.incrTotal, .getHits]

/-- `CacheClient::increment_engagements` run without interference: returns
`(new_total, new_hits)` and the updated hash (`redis_client.rs`, lines
227-246). -/
def increment_engagements (s : EngagementStats) (hit : Bool) :
    (Int × Int) × EngagementStats :=
  let s1 : EngagementStats :=
    { s with total_engagements := some (s.totalVal + 1) }
  let t := s.totalVal + 1
  if hit then
    let s2 : EngagementStats :=
      { s1 with successful_hits := some (s1.hitsVal + 1) }
    ((t, s1.hitsVal + 1), s2)
  else
    ((t, s1.hitsVal), s1)

/-- `Interleave p q l` holds when `l` is an order-preserving merge of the
two command sequences `p` and `q` — one concurrent schedule of two callers
against the same (atomic-per-command) Redis hash. -/
inductive Interleave : List RedisOp → List RedisOp → List RedisOp → Prop where
  | nil : Interleave [] [] []
  | left {x xs ys zs} : Interleave xs ys zs → Interleave (x :: xs) ys (x :: zs)
  | right {y xs ys zs} : Interleave xs ys zs → Interleave xs (y :: ys) (y :: zs)

-- =============================================================================
-- STRATEGY LAYER (write_strategy.rs / read_strategy.rs)
-- =============================================================================

/-- `WriteThroughStrategy::write` (`write_strategy.rs`, lines 46-90),
with the two callbacks replaced by their outcomes: `dbRes` is what the cold
write would return, `cacheRes` what the hot write would return.  The result
is the call's return value paired with whether the hot tier was touched.
The source runs `db_fn().await?` first (so a cold failure returns before
the cache callback is ever invoked) and then runs the cache callback,
logging and discarding any error. -/
def writeThroughWrite {ε : Type} (dbRes : Except ε Unit)
    (cacheRes : Except ε Unit) : Except ε Unit × Bool :=
  match dbRes with
  | .error e => (.error e, false)
  | .ok _ =>
    match cacheRes with
    | .error _ => (.ok (), true)
    | .ok _ => (.ok (), true)

/-- `CacheFirstStrategy::read` (`read_strategy.rs`, lines 54-98):
a cache hit returns directly; a cache miss or a cache error falls through
to the database callback, whose result (value or error) is returned. -/
def cacheFirstRead {ε α : Type} (cacheRes : Except ε (Option α))
    (dbRes : Except ε α) : Except ε α :=
  match cacheRes with
  | .ok (some v) => .ok v
  | .ok none => dbRes
  | .error _ => dbRes

-- =============================================================================
-- ENGAGEMENT PERSISTENCE (mutation.rs / scylla_impl.rs)
-- =============================================================================

/-- The two mirror tables the spec says every engagement is persisted to. -/
inductive EngTable where
  | engagements
  | engagements_by_drone
deriving DecidableEq, Repr

/-- Battle damage assessment, from `drone-domain` (`DamageAssessment`). -/
inductive DamageAssessment where
  | destroyed
  | damaged
  | missed
  | pendingBda
deriving DecidableEq, Repr

/-- `ScyllaEngagementRepository::record` (`scylla_impl.rs`, lines 298-324):
the engagement-table statements it issues.  The body is a single
`INSERT INTO engagements`; no statement touches `engagements_by_drone`. -/
def scyllaRecordWrites : List EngTable := [.engagements]

/-- `MutationRoot::create_engagement` (`mutation.rs`, lines 95-167), as the
pair of (damage assessment on the returned engagement, engagement-table
statements issued).  The resolver records the hit via `update_entry`,
computes the range, and then returns the constructed engagement; the
persistence step is the comment `TODO: Persist to engagement repository`
(line 133), so the list of engagement-table writes is empty. -/
def create_engagement (hit : Bool) : DamageAssessment × List EngTable :=
  (if hit then .pendingBda else .missed, [])

-- =============================================================================
-- ANALYTICS ENGINE (engine.rs)
-- =============================================================================

/-- An analytics engagement record (`engine.rs`, `EngagementRecord`),
restricted to the fields the aggregates in the claims read. -/
structure EngagementRecord where
  engagement_id : Nat
  drone_id : Nat
  weapon_type : String
  hit : Bool
deriving DecidableEq, Repr

/-- The analytics `engagements` fact table: its rows in insertion order.
`engagement_id` is the primary key. -/
abbrev AnalyticsTable := List EngagementRecord

/-- `AnalyticsEngine::ingest_engagement` (`engine.rs`, lines 89-113):
`INSERT ... ON CONFLICT (engagement_id) DO NOTHING` — if a row with the
same `engagement_id` exists the insert is a no-op, otherwise the row is
appended. -/
def ingest_engagement (t : AnalyticsTable) (e : EngagementRecord) :
    AnalyticsTable :=
  if t.any (fun r => r.engagement_id = e.engagement_id) then t else t ++ [e]

/-- The per-weapon aggregate computed by
`AnalyticsEngine::weapon_effectiveness` (`engine.rs`, lines 161-217) for
one weapon type: `(COUNT(*), SUM(CASE WHEN hit THEN 1 ELSE 0 END))` over
the rows of that weapon. -/
def weapon_effectiveness (t : AnalyticsTable) (w : String) : Nat × Nat :=
  ((t.filter (fun r => r.weapon_type = w)).length,
   (t.filter (fun r => r.weapon_type = w ∧ r.hit = true)).length)

-- =============================================================================
-- LEADERBOARD UPDATE LEMMAS
-- =============================================================================

theorem storedTotal_step (s : Option LeaderboardRow) (h : Bool) :
    storedTotal (some (update_entry s h).1) = storedTotal s + 1 := by
  cases s <;> simp [storedTotal, getCurrentStats, update_entry]

theorem storedHits_step (s : Option LeaderboardRow) (h : Bool) :
    storedHits (some (update_entry s h).1) =
      storedHits s + (if h then 1 else 0) := by
  cases s <;> cases h <;> simp [storedHits, getCurrentStats, update_entry]

theorem storedCurrentStreak_step (s : Option LeaderboardRow) (h : Bool) :
    storedCurrentStreak (some (update_entry s h).1) = storedCurrentStreak s := by
  cases s <;> simp [storedCurrentStreak, update_entry, LeaderboardRow.blank]

theorem storedBestStreak_step (s : Option LeaderboardRow) (h : Bool) :
    storedBestStreak (some (update_entry s h).1) = storedBestStreak s := by
  cases s <;> simp [storedBestStreak, update_entry, LeaderboardRow.blank]

theorem storedAccuracy_step (s : Option LeaderboardRow) (h : Bool)
    (hnn : 0 ≤ storedTotal s) :
    storedAccuracy (some (update_entry s h).1) =
      some (((storedHits s + (if h then 1 else 0) : Int) : ℚ) /
        ((storedTotal s + 1 : Int) : ℚ) * 100) := by
  have htot : (0 : Int) < storedTotal s + 1 := by omega
  cases s <;> cases h <;>
    simp [storedAccuracy, storedHits, storedTotal, getCurrentStats,
      update_entry] at htot ⊢ <;>
    simp [htot, if_pos]

/-- Combined invariant of a run of `update_entry` calls: the stored total
counts the calls, the stored hits count the `true` flags, and once at least
one call has happened the stored accuracy is exactly the unrounded quotient
written by the last call. -/
theorem runEngagements_invariant (hs : List Bool) :
    ∀ s : Option LeaderboardRow, 0 ≤ storedTotal s →
      storedTotal (runEngagements s hs) = storedTotal s + hs.length ∧
      storedHits (runEngagements s hs) = storedHits s + countHits hs ∧
      (hs = [] ∨ storedAccuracy (runEngagements s hs) =
        some (((storedHits (runEngagements s hs) : Int) : ℚ) /
          ((storedTotal (runEngagements s hs) : Int) : ℚ) * 100)) := by
  induction hs with
  | nil => intro s _; simp [runEngagements, countHits]
  | cons h t ih =>
    intro s hnn
    have hstep : runEngagements s (h :: t) =
        runEngagements (some (update_entry s h).1) t := rfl
    have hnn' : 0 ≤ storedTotal (some (update_entry s h).1) := by
      rw [storedTotal_step]; omega
    obtain ⟨iht, ihh, iha⟩ := ih (some (update_entry s h).1) hnn'
    refine ⟨?_, ?_, ?_⟩
    · rw [hstep, iht, storedTotal_step]
      simp only [List.length_cons]
      push_cast
      ring
    · rw [hstep, ihh, storedHits_step]
      cases h <;> simp [countHits, List.count_cons] <;> omega
    · right
      rcases iha with hnil | hacc
      · subst hnil
        rw [hstep]
        simp only [runEngagements]
        rw [storedAccuracy_step s h hnn, storedHits_step, storedTotal_step]
      · rw [hstep]; exact hacc

-- =============================================================================
-- CLAIM THEOREMS: ACCURACY ENGINE
-- =============================================================================

/-- Claim C1 — for any sequence of `recordEngagement(asset, hit_i)` calls on
a fresh asset (each delegating to `update_entry`), the final stored
`total_engagements` equals the number of calls and the final stored
`successful_hits` equals the number of calls with `hit_i = true`. -/
theorem recordEngagement_sequence_counts (hs : List Bool) :
    storedTotal (runEngagements none hs) = hs.length ∧
    storedHits (runEngagements none hs) = countHits hs := by
  obtain ⟨ht, hh, _⟩ := runEngagements_invariant hs none (by simp [storedTotal, getCurrentStats])
  constructor
  · rw [ht]; simp [storedTotal, getCurrentStats]
  · rw [hh]; simp [storedHits, getCurrentStats]

/-- Claim C2, counterexample — after two hits and one miss the stored
`accuracy_pct` is the unrounded quotient `200/3`, not the two-decimal
rounding `round(100 × 2/3, 2) = 66.67` that the claim states. -/
theorem accuracy_rounding_counterexample :
    storedAccuracy (runEngagements none [true, true, false]) =
      some ((200 : ℚ) / 3) ∧
    storedAccuracy (runEngagements none [true, true, false]) ≠
      some (roundTo2 (100 * (2 : ℚ) / 3)) := by
  have h : storedAccuracy (runEngagements none [true, true, false]) =
      some ((200 : ℚ) / 3) := by
    simp [runEngagements, update_entry, getCurrentStats, storedAccuracy,
      LeaderboardRow.blank]
    norm_num
  refine ⟨h, ?_⟩
  rw [h]
  simp only [ne_eq, Option.some.injEq]
  norm_num [roundTo2, round_eq]

/-- Claim C2, amended — after any non-empty sequence of `recordEngagement`
calls on a fresh asset, the stored `accuracy_pct` equals
`(successful_hits / total_engagements) × 100` computed exactly, with no
rounding to two decimals (`update_entry` computes
`(new_hits as f32 / new_total as f32) * 100.0` and stores it as is). -/
theorem update_entry_accuracy_exact (hs : List Bool) (hne : hs ≠ []) :
    storedAccuracy (runEngagements none hs) =
      some (((countHits hs : Int) : ℚ) / ((hs.length : Int) : ℚ) * 100) := by
  obtain ⟨ht, hh, hacc⟩ :=
    runEngagements_invariant hs none (by simp [storedTotal, getCurrentStats])
  rcases hacc with hnil | hacc
  · exact absurd hnil hne
  · rw [hacc, ht, hh]
    simp [storedTotal, storedHits, getCurrentStats]

theorem update_entry_accuracy_exact_witness :
    storedAccuracy (runEngagements none [true, true, false]) =
      some (((countHits [true, true, false] : Int) : ℚ) /
        (([true, true, false].length : Int) : ℚ) * 100) :=
  update_entry_accuracy_exact [true, true, false] (by decide)

/-- Claim C3 — the code bug: `update_entry` performs no streak accounting.
Its `SELECT` does not read the streak columns, its `UPDATE` sets only
`total_engagements`, `successful_hits` and `accuracy_pct`, and the entry it
returns carries no streak data; hence after any call sequence on a fresh
asset (in particular after a single hit, where the claim demands
`current_streak = 1` and `best_streak = 1`) both streak columns are still
unwritten (null). -/
theorem update_entry_never_writes_streaks (hs : List Bool) :
    storedCurrentStreak (runEngagements none hs) = none ∧
    storedBestStreak (runEngagements none hs) = none := by
  have key : ∀ (l : List Bool) (s : Option LeaderboardRow),
      storedCurrentStreak (runEngagements s l) = storedCurrentStreak s ∧
      storedBestStreak (runEngagements s l) = storedBestStreak s := by
    intro l
    induction l with
    | nil => intro s; exact ⟨rfl, rfl⟩
    | cons h t ih =>
      intro s
      have hstep : runEngagements s (h :: t) =
          runEngagements (some (update_entry s h).1) t := rfl
      obtain ⟨ihc, ihb⟩ := ih (some (update_entry s h).1)
      rw [hstep]
      exact ⟨by rw [ihc, storedCurrentStreak_step],
             by rw [ihb, storedBestStreak_step]⟩
  obtain ⟨hc, hb⟩ := key hs none
  exact ⟨by rw [hc]; rfl, by rw [hb]; rfl⟩

/-- Claim C10 — `update_entry` on an asset without a leaderboard row (or
with a row whose selected columns are all null) does not fail: it treats
the current state as zero engagements with callsign `"UNKNOWN"` and
platform `MQ9_REAPER`, and returns a successfully created entry with
`total_engagements = 1`. -/
theorem update_entry_missing_row_defaults (hit : Bool) :
    (update_entry none hit).2 =
      { callsign := "UNKNOWN", platform_type := .mq9Reaper,
        total_engagements := 1,
        successful_hits := if hit then 1 else 0,
        accuracy_pct := if hit then 100 else 0,
        rank := 0 } ∧
    (update_entry (some LeaderboardRow.blank) hit).2 =
      (update_entry none hit).2 := by
  cases hit <;> refine ⟨?_, ?_⟩ <;>
    simp [update_entry, getCurrentStats, platformParseOr, LeaderboardRow.blank]

-- =============================================================================
-- CLAIM THEOREMS: RANKING PAGE (get_leaderboard)
-- =============================================================================

/-- Two rows with equal `accuracy_pct` but different `total_engagements`,
stored as `update_entry` leaves them (`rank` never written, hence null).
Clustering places the smaller `drone_id` first even though it has fewer
engagements. -/
def cexRowA : LBTableRow :=
  { drone_id := 1, callsign := some "ALPHA",
    platform_type := some "MQ9_REAPER", total_engagements := some 2,
    successful_hits := some 1, accuracy_pct := some 50, rank := none }

/-- Companion row to `cexRowA`: same accuracy, more engagements, larger id. -/
def cexRowB : LBTableRow :=
  { drone_id := 2, callsign := some "BRAVO",
    platform_type := some "MQ9_REAPER", total_engagements := some 4,
    successful_hits := some 2, accuracy_pct := some 50, rank := none }

/-- A two-row leaderboard partition in clustering order. -/
def cexRows : List LBTableRow := [cexRowA, cexRowB]

/-- Claim C4, counterexample — a convoy partition that the cold tier hands
back in clustering order on which the claimed page property fails: the two
rows tie on `accuracy_pct` but are ordered by `drone_id`, not by
`total_engagements` descending, and the returned ranks are the stored
column defaults (0), not the contiguous prefix 1, 2. -/
theorem get_leaderboard_claim_counterexample :
    cexRows.Sorted clusterLE ∧ ¬ rankingPageClaim cexRows 10 := by
  constructor
  · simp only [cexRows, List.sorted_cons, List.sorted_singleton,
      List.mem_singleton]
    refine ⟨fun b hb => ?_, by simp⟩
    subst hb
    right
    simp [clusterLE, cexRowA, cexRowB]
  · intro hclaim
    have hlen : (get_leaderboard_cold cexRows 10).length = 2 := rfl
    have h0 := hclaim.2 ⟨0, by rw [hlen]; omega⟩
    have hval : ((get_leaderboard_cold cexRows 10).get
        ⟨0, by rw [hlen]; omega⟩).rank = 0 := rfl
    rw [hval] at h0
    simp at h0

/-- Claim C4, amended — a page returned by the cache-miss path of
`get_leaderboard` is the clustering-ordered prefix of the partition: it is
sorted by `accuracy_pct` descending (ties resolved by `drone_id` ascending,
not by `total_engagements`), and the `rank` carried by each entry is the
stored `rank` column value with null defaulting to 0 (row-index ranks are
not assigned). -/
theorem get_leaderboard_cold_order_and_ranks (rows : List LBTableRow)
    (limit : Nat) (hsorted : rows.Sorted clusterLE) :
    (get_leaderboard_cold rows limit).Sorted
      (fun a b => b.accuracy_pct ≤ a.accuracy_pct) ∧
    (get_leaderboard_cold rows limit).map (fun e => e.rank) =
      (rows.take limit).map (fun r => r.rank.getD 0) := by
  constructor
  · have htake : (rows.take limit).Sorted clusterLE :=
      hsorted.sublist (List.take_sublist _ _)
    have himp : ∀ a b : LBTableRow, clusterLE a b →
        (rowToEntry b).accuracy_pct ≤ (rowToEntry a).accuracy_pct := by
      intro a b hab
      rcases hab with hlt | ⟨heq, _⟩
      · simp only [rowToEntry]
        exact le_of_lt hlt
      · simp only [rowToEntry]
        exact le_of_eq heq.symm
    exact (List.pairwise_map).2 (htake.imp (fun {a b} hab => himp a b hab))
  · rw [get_leaderboard_cold, List.map_map]
    rfl

theorem get_leaderboard_cold_order_and_ranks_witness :
    (get_leaderboard_cold cexRows 10).Sorted
      (fun a b => b.accuracy_pct ≤ a.accuracy_pct) ∧
    (get_leaderboard_cold cexRows 10).map (fun e => e.rank) =
      (cexRows.take 10).map (fun r => r.rank.getD 0) :=
  get_leaderboard_cold_order_and_ranks cexRows 10
    (by
      simp only [cexRows, List.sorted_cons, List.sorted_singleton,
        List.mem_singleton]
      refine ⟨fun b hb => ?_, by simp⟩
      subst hb
      right
      simp [clusterLE, cexRowA, cexRowB])

-- =============================================================================
-- CLAIM THEOREMS: HOT-STORE COUNTERS
-- =============================================================================

theorem execOps_totalVal (l : List RedisOp) :
    ∀ s : EngagementStats,
      (execOps s l).totalVal =
        s.totalVal + (l.count RedisOp.incrTotal : Int) := by
  induction l with
  | nil => intro s; simp [execOps]
  | cons op t ih =>
    intro s
    have hstep : execOps s (op :: t) = execOps (applyOp s op) t := rfl
    rw [hstep, ih]
    cases op <;>
      simp [applyOp, EngagementStats.totalVal, List.count_cons] <;> omega

theorem execOps_hitsVal (l : List RedisOp) :
    ∀ s : EngagementStats,
      (execOps s l).hitsVal =
        s.hitsVal + (l.count RedisOp.incrHits : Int) := by
  induction l with
  | nil => intro s; simp [execOps]
  | cons op t ih =>
    intro s
    have hstep : execOps s (op :: t) = execOps (applyOp s op) t := rfl
    rw [hstep, ih]
    cases op <;>
      simp [applyOp, EngagementStats.hitsVal, List.count_cons] <;> omega

theorem interleave_count (a : RedisOp) {p q l : List RedisOp}
    (h : Interleave p q l) : l.count a = p.count a + q.count a := by
  induction h with
  | nil => simp
  | left _ ih => simp only [List.count_cons, ih]; omega
  | right _ ih => simp only [List.count_cons, ih]; omega

theorem callOps_count_total (hit : Bool) :
    (callOps hit).count RedisOp.incrTotal = 1 := by
  cases hit <;> decide

theorem callOps_count_hits (hit : Bool) :
    (callOps hit).count RedisOp.incrHits = if hit then 1 else 0 := by
  cases hit <;> decide

/-- Claim C5 — `increment_engagements` returns `new_total` = previous total
plus 1 and `new_hits` = previous hits plus 1 iff `hit`; its effect equals
executing its atomic Redis commands in order; and under any interleaving of
two concurrent calls for the same asset no increment is lost: the final
total grows by exactly 2 and the final hits by exactly the number of
hitting callers. -/
theorem increment_engagements_atomic (s c : EngagementStats)
    (hit h1 h2 : Bool) (l : List RedisOp)
    (hl : Interleave (callOps h1) (callOps h2) l) :
    (increment_engagements s hit).1 =
      (s.totalVal + 1, if hit then s.hitsVal + 1 else s.hitsVal) ∧
    (increment_engagements s hit).2 = execOps s (callOps hit) ∧
    (execOps c l).totalVal = c.totalVal + 2 ∧
    (execOps c l).hitsVal =
      c.hitsVal + ((if h1 then 1 else 0) + (if h2 then 1 else 0)) := by
  refine ⟨?_, ?_, ?_, ?_⟩
  · cases hit <;>
      simp [increment_engagements, EngagementStats.totalVal,
        EngagementStats.hitsVal]
  · cases hit <;> rfl
  · rw [execOps_totalVal, interleave_count RedisOp.incrTotal hl,
      callOps_count_total, callOps_count_total]
    norm_num
  · rw [execOps_hitsVal, interleave_count RedisOp.incrHits hl,
      callOps_count_hits, callOps_count_hits]
    cases h1 <;> cases h2 <;> simp

theorem increment_engagements_atomic_witness :
    (increment_engagements ⟨none, none⟩ true).1 =
      ((⟨none, none⟩ : EngagementStats).totalVal + 1,
        if true then (⟨none, none⟩ : EngagementStats).hitsVal + 1
        else (⟨none, none⟩ : EngagementStats).hitsVal) ∧
    (increment_engagements ⟨none, none⟩ true).2 =
      execOps ⟨none, none⟩ (callOps true) ∧
    (execOps ⟨none, none⟩
        [RedisOp.incrTotal, RedisOp.incrHits, RedisOp.incrTotal,
          RedisOp.getHits]).totalVal =
      (⟨none, none⟩ : EngagementStats).totalVal + 2 ∧
    (execOps ⟨none, none⟩
        [RedisOp.incrTotal, RedisOp.incrHits, RedisOp.incrTotal,
          RedisOp.getHits]).hitsVal =
      (⟨none, none⟩ : EngagementStats).hitsVal +
        ((if true then 1 else 0) + (if false then 1 else 0)) :=
  increment_engagements_atomic ⟨none, none⟩ ⟨none, none⟩ true true false
    [RedisOp.incrTotal, RedisOp.incrHits, RedisOp.incrTotal, RedisOp.getHits]
    (Interleave.left (Interleave.left (Interleave.right
      (Interleave.right Interleave.nil))))

-- =============================================================================
-- CLAIM THEOREMS: STRATEGY LAYER
-- =============================================================================

/-- Claim C6 — `WriteThroughStrategy::write`: a cold-tier failure is
surfaced and the hot tier is never touched; after a cold-tier success a
hot-tier failure is swallowed and the call still returns success (and a
hot-tier success also returns success). -/
theorem writeThrough_error_contract {ε : Type} (e eh : ε)
    (c : Except ε Unit) :
    writeThroughWrite (Except.error e) c = (Except.error e, false) ∧
    writeThroughWrite (Except.ok ()) (Except.error eh) =
      (Except.ok (), true) ∧
    writeThroughWrite (Except.ok () : Except ε Unit) (Except.ok ()) =
      (Except.ok (), true) := by
  refine ⟨?_, rfl, rfl⟩
  cases c <;> rfl

/-- Claim C7 — `CacheFirstStrategy::read`: a hot-tier hit is returned
directly; on a hot-tier miss the cold tier's result is returned; a hot-tier
transport error is swallowed and the read falls through to the cold tier,
whose result — error included — is the one surfaced. -/
theorem cacheFirst_read_contract {ε α : Type} (v : α) (e : ε)
    (dbRes : Except ε α) :
    cacheFirstRead (Except.ok (some v)) dbRes = Except.ok v ∧
    cacheFirstRead (Except.ok (none : Option α)) dbRes = dbRes ∧
    cacheFirstRead (Except.error e) dbRes = dbRes :=
  ⟨rfl, rfl, rfl⟩

-- =============================================================================
-- CLAIM THEOREMS: ENGAGEMENT PERSISTENCE AND ANALYTICS
-- =============================================================================

/-- Claim C8 — the code bug: `createEngagement` does not persist the
engagement at all (the resolver's persistence step is a TODO comment), so
no write reaches either mirror table; and even the engagement repository's
`record` issues a single `INSERT INTO engagements`, never touching
`engagements_by_drone`. -/
theorem create_engagement_no_mirror_writes :
    (∀ hit, (create_engagement hit).2 = [] ∧
      (create_engagement hit).1 =
        (if hit then DamageAssessment.pendingBda else DamageAssessment.missed)) ∧
    EngTable.engagements_by_drone ∉ scyllaRecordWrites := by
  refine ⟨fun hit => ⟨rfl, rfl⟩, ?_⟩
  decide

theorem ingest_skip (t : AnalyticsTable) (e : EngagementRecord)
    (h : t.any (fun r => r.engagement_id = e.engagement_id) = true) :
    ingest_engagement t e = t := by
  unfold ingest_engagement
  simp [h]

theorem ingest_mem_self (t : AnalyticsTable) (e : EngagementRecord) :
    (ingest_engagement t e).any
      (fun r => r.engagement_id = e.engagement_id) = true := by
  unfold ingest_engagement
  split
  · rename_i h
    exact h
  · simp

/-- Claim C9 — analytics ingestion is idempotent on `engagement_id`:
re-ingesting a record carrying an already-present id leaves the fact table
unchanged, and hence every aggregate — `weapon_effectiveness` in
particular — returns the same results as after the first ingestion. -/
theorem ingest_engagement_idempotent (t : AnalyticsTable)
    (e e' : EngagementRecord)
    (hid : e'.engagement_id = e.engagement_id) :
    ingest_engagement (ingest_engagement t e) e' = ingest_engagement t e ∧
    ∀ w, weapon_effectiveness (ingest_engagement (ingest_engagement t e) e') w
        = weapon_effectiveness (ingest_engagement t e) w := by
  have hmem : (ingest_engagement t e).any
      (fun r => r.engagement_id = e'.engagement_id) = true := by
    simp only [hid]
    exact ingest_mem_self t e
  have h1 : ingest_engagement (ingest_engagement t e) e' =
      ingest_engagement t e := ingest_skip _ _ hmem
  exact ⟨h1, fun w => by rw [h1]⟩

/-- A concrete engagement record for exercising analytics ingestion. -/
def sampleRecord : EngagementRecord :=
  { engagement_id := 7, drone_id := 3,
    weapon_type := "AGM114_HELLFIRE", hit := true }

theorem ingest_engagement_idempotent_witness :
    ingest_engagement (ingest_engagement [] sampleRecord) sampleRecord =
      ingest_engagement [] sampleRecord ∧
    ∀ w, weapon_effectiveness
        (ingest_engagement (ingest_engagement [] sampleRecord) sampleRecord) w
      = weapon_effectiveness (ingest_engagement [] sampleRecord) w :=
  ingest_engagement_idempotent [] sampleRecord sampleRecord rfl

end DroneTracking
